import Mathlib

/-!
Shallow embedding of the tile-image cache and download-coordination core of
QMapControl, translated from `src/QMapControl/src/QMapControl/ImageManager.cpp`
and `src/QMapControl/src/QMapControl/NetworkManager.h`.

Modelling conventions:
* `QUrl` keys are strings; `QByteArray` payloads are lists of bytes (`Nat`).
* `QPixmap` is modelled by `Pixmap`: the null pixmap, the two drawn
  placeholder tiles produced by `setupPlaceholderPixmaps` (the loading tile
  with its gray pattern and text, and the transparent empty tile), or an
  image decoded from raw bytes.  `QPixmap::fromImageReader` is modelled by an
  arbitrary decoder `dec : Bytes → Option Bytes` threaded through the
  operations: `none` is a decode failure (null pixmap), `some d` a decoded
  image.
* `ImageManager::hashTileUrl` computes the MD5 hex digest of
  (url ++ epsg ++ tileSize); since a cryptographic hash is treated as
  injective on this triple, the cache key is modelled as the triple itself.
* The memory cache (`QCache`) is an association list where insertion shadows
  any previous entry for the key, which is what `QCache::insert` does to the
  lookup behaviour.  Cost-based eviction is not modelled: no claim under
  check concerns capacity or eviction.
* Observable interactions are recorded in an effect list `Eff`: the
  `downloadImage` signal emission to the network manager, synchronous tile
  provider queries, persistent disk-cache reads, and the `imageUpdated` and
  `imageCached` notifications.
* `NetworkManager`'s implementation file is not among the sources, only its
  header.  The parts a claim needs (`downloadImage` de-duplication,
  `abortDownloads`, `setCache`) are modelled from the spec and the header's
  documentation, and are marked `Modelled from the spec:`.
-/

/-- Tile URL (`QUrl`), the key callers pass to `ImageManager`. -/
abbrev Url := String

/-- Raw tile bytes (`QByteArray`). -/
abbrev Bytes := List Nat

/-- Decoded image (`QPixmap`): the null pixmap, one of the two drawn
placeholder tiles, or an image decoded from raw bytes. -/
inductive Pixmap where
  | null : Pixmap
  | loadingTile (sz : Nat) : Pixmap
  | emptyTile (sz : Nat) : Pixmap
  | img (data : Bytes) : Pixmap
deriving DecidableEq, Repr

/-- Model of `QPixmap::isNull`. -/
def Pixmap.isNull : Pixmap → Bool
  | .null => true
  | _ => false

/-- Cache policy enumeration of `ImageManager` (`CachePolicy`). -/
inductive CachePolicy where
  | AlwaysCache : CachePolicy
  | AlwaysNetwork : CachePolicy
  | PreferCache : CachePolicy
deriving DecidableEq, Repr

/-- Observable interactions of `ImageManager` operations. -/
inductive Eff where
  /-- Emission of the `downloadImage(url, cacheOnly)` signal, connected to
  `NetworkManager::downloadImage`. -/
  | downloadImage (url : Url) (cacheOnly : Bool) : Eff
  /-- Synchronous call of `m_tileProvider->getTileData(url, data)`. -/
  | queryProvider (url : Url) : Eff
  /-- Read of `m_diskCache->data(url)`. -/
  | readDiskCache (url : Url) : Eff
  /-- Emission of the `imageUpdated(url)` signal. -/
  | imageUpdated (url : Url) : Eff
  /-- Emission of the `imageCached()` signal. -/
  | imageCached : Eff
deriving DecidableEq, Repr

/-- Transport-level action of the network manager. -/
inductive NetEff where
  /-- Start of a new transport operation for `url`
  (`QNetworkAccessManager::get`). -/
  | transportStart (url : Url) (cacheOnly : Bool) : NetEff
deriving DecidableEq, Repr

/-- State of `NetworkManager`: the outstanding download-request table
(`m_downloadRequests`, here the set of in-flight URLs) and the disk cache
attached to the transport layer via `setCache`. -/
structure NMState where
  downloadRequests : List Url
  cache : Option (List (Url × Bytes))

/-- Model of `NetworkManager::isDownloading`: whether the url resource is
currently being downloaded. -/
def NMState.isDownloading (nm : NMState) (url : Url) : Bool :=
  decide (url ∈ nm.downloadRequests)

/-- Modelled from the spec: `NetworkManager::downloadImage`
(NetworkManager.cpp is absent from the sources; NetworkManager.h only
declares it).  The spec requires that if a request for the URL is already
outstanding, a second request must not start a second transport operation;
otherwise the URL is recorded in the request table and a transport
operation starts. -/
def NMState.downloadImage (nm : NMState) (url : Url) (cacheOnly : Bool) :
    NMState × List NetEff :=
  if nm.isDownloading url then
    (nm, [])
  else
    ({ nm with downloadRequests := url :: nm.downloadRequests },
     [NetEff.transportStart url cacheOnly])

/-- Modelled from the spec: `NetworkManager::abortDownloads`
(NetworkManager.cpp is absent from the sources).  Cancels every outstanding
transport operation and clears the internal bookkeeping. -/
def NMState.abortDownloads (nm : NMState) : NMState :=
  { nm with downloadRequests := [] }

/-- Modelled from the spec: `NetworkManager::setCache`
(NetworkManager.cpp is absent from the sources).  Attaches the given disk
cache to the transport layer, or detaches it when given a null pointer. -/
def NMState.setCache (nm : NMState) (c : Option (List (Url × Bytes))) :
    NMState :=
  { nm with cache := c }

/-- Memory-cache key: `hashTileUrl` hashes (url, EPSG code, tile size); the
hash being injective by design, the key is modelled as the triple. -/
abbrev TileKey := Url × Nat × Nat

/-- First-match lookup in an association list. -/
def assocLookup {α β : Type} [DecidableEq α] : List (α × β) → α → Option β
  | [], _ => none
  | (k, v) :: rest, a => if k = a then some v else assocLookup rest a

/-- State of `ImageManager`. -/
structure ImState where
  /-- Tile size in pixels (`m_tile_size_px`). -/
  tileSizePx : Nat
  /-- EPSG code of the active projection (`projection::get().epsg()`). -/
  epsg : Nat
  /-- Memory tile cache (`m_memoryCache`), key to decoded pixmap. -/
  memoryCache : List (TileKey × Pixmap)
  /-- Persistent disk cache (`m_diskCache`), `none` when the pointer is
  null; maps URLs to raw bytes. -/
  diskCache : Option (List (Url × Bytes))
  /-- Current cache policy (`m_cachePolicy`). -/
  cachePolicy : CachePolicy
  /-- Optional custom tile provider (`m_tileProvider`); `getTileData` is
  modelled as a function giving `some data` on success, `none` on
  explicit no-data. -/
  tileProvider : Option (Url → Option Bytes)
  /-- Prefetch URL set (`m_prefetchUrls`). -/
  prefetchUrls : List Url
  /-- Loading placeholder pixmap (`m_pixmapLoading`). -/
  pixmapLoading : Pixmap
  /-- Empty placeholder pixmap (`m_pixmapEmpty`). -/
  pixmapEmpty : Pixmap
  /-- Owned network manager (`m_networkManager`). -/
  networkManager : NMState

/-- Model of `ImageManager::hashTileUrl`. -/
def hashTileUrl (st : ImState) (url : Url) : TileKey :=
  (url, st.epsg, st.tileSizePx)

/-- Model of `QPixmap::fromImageReader` applied to raw bytes: decode failure
yields the null pixmap, success the decoded image. -/
def decodePixmap (dec : Bytes → Option Bytes) (data : Bytes) : Pixmap :=
  match dec data with
  | some d => Pixmap.img d
  | none => Pixmap.null

/-- Model of `ImageManager::insertTileToMemoryCache`: a non-null pixmap is
inserted under the url hash; a null pixmap leaves the cache unchanged. -/
def insertTileToMemoryCache (st : ImState) (url : Url) (pixmap : Pixmap) :
    ImState :=
  if pixmap.isNull then st
  else { st with memoryCache := (hashTileUrl st url, pixmap) :: st.memoryCache }

/-- Model of `ImageManager::findTileInMemoryCache`: the cached pixmap for the
url hash, when present. -/
def findTileInMemoryCache (st : ImState) (url : Url) : Option Pixmap :=
  assocLookup st.memoryCache (hashTileUrl st url)

/-- Model of `ImageManager::getImageFromDevice`: decode the device's bytes,
insert the result into the memory cache, drop the url from the prefetch
set, and return the decoded pixmap. -/
def getImageFromDevice (dec : Bytes → Option Bytes) (url : Url)
    (data : Bytes) (st : ImState) : Pixmap × ImState :=
  let pixmap := decodePixmap dec data
  let st1 := insertTileToMemoryCache st url pixmap
  let st2 := { st1 with prefetchUrls := st1.prefetchUrls.erase url }
  (pixmap, st2)

/-- Lookup of raw bytes in the persistent disk cache
(`m_diskCache->data(url)`), `none` when the pointer is null or the cache
misses. -/
def diskLookup (st : ImState) (url : Url) : Option Bytes :=
  match st.diskCache with
  | some dc => assocLookup dc url
  | none => none

/-- Model of `ImageManager::rawImageFromDiskCache`: with a provider bound,
whatever bytes the provider produced (an empty array on provider no-data,
with no disk fallback); otherwise the disk cache's bytes or an empty
array. -/
def rawImageFromDiskCache (st : ImState) (url : Url) : Bytes :=
  match st.tileProvider with
  | some provider =>
    match provider url with
    | some data => data
    | none => []
  | none =>
    match st.diskCache with
    | some dc =>
      match assocLookup dc url with
      | some data => data
      | none => []
    | none => []

/-- Model of `ImageManager::getImageInternal` (the miss path): provider
first when bound, then under `AlwaysCache`/`PreferCache` the disk cache,
then the empty placeholder under `AlwaysCache`, else emit a download and
return the loading placeholder. -/
def getImageInternal (dec : Bytes → Option Bytes) (url : Url)
    (st : ImState) : Pixmap × ImState × List Eff :=
  match st.tileProvider with
  | some provider =>
    match provider url with
    | some data =>
      let r := getImageFromDevice dec url data st
      (r.1, r.2, [Eff.queryProvider url])
    | none => (st.pixmapEmpty, st, [Eff.queryProvider url])
  | none =>
    if st.cachePolicy = CachePolicy.AlwaysCache
        ∨ st.cachePolicy = CachePolicy.PreferCache then
      match st.diskCache with
      | some dc =>
        match assocLookup dc url with
        | some data =>
          let r := getImageFromDevice dec url data st
          (r.1, r.2, [Eff.readDiskCache url])
        | none =>
          if st.cachePolicy = CachePolicy.AlwaysCache then
            (st.pixmapEmpty, st, [Eff.readDiskCache url])
          else
            (st.pixmapLoading, st,
             [Eff.readDiskCache url, Eff.downloadImage url false])
      | none =>
        if st.cachePolicy = CachePolicy.AlwaysCache then
          (st.pixmapEmpty, st, [])
        else
          (st.pixmapLoading, st, [Eff.downloadImage url false])
    else
      (st.pixmapLoading, st, [Eff.downloadImage url false])

/-- Model of `ImageManager::getImage`: memory-cache hit returned
immediately, otherwise the miss path of `getImageInternal`. -/
def getImage (dec : Bytes → Option Bytes) (url : Url) (st : ImState) :
    Pixmap × ImState × List Eff :=
  match findTileInMemoryCache st url with
  | some pixmap => (pixmap, st, [])
  | none => getImageInternal dec url st

/-- Model of `QSet::insert` on the prefetch set. -/
def qsetInsert (url : Url) (s : List Url) : List Url :=
  if url ∈ s then s else url :: s

/-- Model of `ImageManager::prefetchImage`: when the image is not already in
the memory cache, record the url in the prefetch set and run the miss
path. -/
def prefetchImage (dec : Bytes → Option Bytes) (url : Url) (st : ImState) :
    ImState × List Eff :=
  match findTileInMemoryCache st url with
  | some _ => (st, [])
  | none =>
    let st1 := { st with prefetchUrls := qsetInsert url st.prefetchUrls }
    let r := getImageInternal dec url st1
    (r.2.1, r.2.2)

/-- Model of `ImageManager::handleImageCached`: emits `imageCached`. -/
def handleImageCached (st : ImState) : ImState × List Eff :=
  (st, [Eff.imageCached])

/-- Model of `ImageManager::cacheImageToDisk`: under a cache-preferring
policy an already-available raw payload is success (with the `imageCached`
notification through `handleImageCached`), a pure cache-only policy is
success regardless; otherwise a cache-only download is emitted and `false`
returned. -/
def cacheImageToDisk (url : Url) (st : ImState) :
    Bool × ImState × List Eff :=
  if st.cachePolicy = CachePolicy.AlwaysCache
      ∨ st.cachePolicy = CachePolicy.PreferCache then
    if (rawImageFromDiskCache st url).length > 0 then
      let r := handleImageCached st
      (true, r.1, r.2)
    else if st.cachePolicy = CachePolicy.AlwaysCache then
      (true, st, [])
    else
      (false, st, [Eff.downloadImage url true])
  else
    (false, st, [Eff.downloadImage url true])

/-- Model of `ImageManager::abortLoading`: abort the network manager's
downloads and clear the prefetch set. -/
def abortLoading (st : ImState) : ImState :=
  { st with networkManager := st.networkManager.abortDownloads,
            prefetchUrls := [] }

/-- Model of `ImageManager::setCachePolicy`: store the policy, abort
loading when entering `AlwaysCache`, detach the disk cache from the
network layer under `AlwaysNetwork` and attach it otherwise. -/
def setCachePolicy (st : ImState) (policy : CachePolicy) : ImState :=
  let st1 := { st with cachePolicy := policy }
  let st2 := if policy = CachePolicy.AlwaysCache then abortLoading st1 else st1
  if policy = CachePolicy.AlwaysNetwork then
    { st2 with networkManager := st2.networkManager.setCache none }
  else
    { st2 with networkManager := st2.networkManager.setCache st2.diskCache }

/-- Model of `ImageManager::handleImageDownloaded`: a prefetch completion is
absorbed silently (url removed from the prefetch set), any other
completion emits `imageUpdated`; the pixmap is handed to the memory-cache
insertion in both cases. -/
def handleImageDownloaded (url : Url) (pixmap : Pixmap) (st : ImState) :
    ImState × List Eff :=
  if url ∈ st.prefetchUrls then
    let st1 := { st with prefetchUrls := st.prefetchUrls.erase url }
    (insertTileToMemoryCache st1 url pixmap, [])
  else
    (insertTileToMemoryCache st url pixmap, [Eff.imageUpdated url])

/-- Well-formedness of the memory cache: every entry it holds is a
non-null pixmap. -/
abbrev CacheWF (c : List (TileKey × Pixmap)) : Prop :=
  ∀ kv ∈ c, kv.2.isNull = false

/-- Identity decoder: every byte payload decodes to itself. -/
def decId : Bytes → Option Bytes := fun b => some b

/-- Always-failing decoder, modelling malformed bytes. -/
def decFail : Bytes → Option Bytes := fun _ => none

/-- Network manager with no outstanding requests and no attached cache. -/
def nm0 : NMState := { downloadRequests := [], cache := none }

/-- Base concrete manager state for evaluating the theorems: default tile
size, EPSG 4326, empty caches, `AlwaysCache` policy, no provider. -/
def stBase : ImState :=
  { tileSizePx := 256
  , epsg := 4326
  , memoryCache := []
  , diskCache := none
  , cachePolicy := CachePolicy.AlwaysCache
  , tileProvider := none
  , prefetchUrls := []
  , pixmapLoading := Pixmap.loadingTile 256
  , pixmapEmpty := Pixmap.emptyTile 256
  , networkManager := nm0 }

/-- Sample provider serving bytes `[1, 2]` for url `a` only. -/
def provA : Url → Option Bytes := fun u => if u = "a" then some [1, 2] else none

/-- Concrete state whose memory cache holds an image for url `u`. -/
def stHit2 : ImState :=
  { stBase with memoryCache := [(("u", 4326, 256), Pixmap.img [7])] }

/-- Concrete state with a bound provider, for the miss-path evaluation. -/
def stProv1 : ImState := { stBase with tileProvider := some provA }

/-- Concrete state for the decode-failure evaluation: provider bound,
serving bytes for url `a`. -/
def stC8 : ImState := { stBase with tileProvider := some provA }

/-- Concrete state whose memory cache holds an image for url `u`, for the
cache well-formedness evaluation. -/
def stHit9 : ImState :=
  { stBase with memoryCache := [(("u", 4326, 256), Pixmap.img [7])] }

/-- Concrete state whose memory cache holds an image for url `u`, for the
prefetch no-op evaluation. -/
def stHit10 : ImState :=
  { stBase with memoryCache := [(("u", 4326, 256), Pixmap.img [7])] }

/-- Concrete state whose prefetch set holds url `p`, for the completion
evaluation. -/
def stPre5 : ImState := { stBase with prefetchUrls := ["p"] }

/-- Concrete state with a disk cache holding bytes for url `d`, policy
`PreferCache`, for the cache-to-disk evaluation. -/
def stDisk7 : ImState :=
  { stBase with
      diskCache := some [("d", [3, 4])],
      cachePolicy := CachePolicy.PreferCache }

/-- Concrete network manager with one outstanding request, for the
de-duplication evaluation. -/
def nmBusy : NMState := { downloadRequests := ["a"], cache := none }

/-- Helper: a successful association-list lookup returns a value stored in
the list. -/
theorem assocLookup_mem {α β : Type} [DecidableEq α] (l : List (α × β))
    (a : α) (b : β) (h : assocLookup l a = some b) : ∃ k, (k, b) ∈ l := by
  induction l with
  | nil => simp [assocLookup] at h
  | cons kv rest ih =>
    obtain ⟨k, v⟩ := kv
    by_cases hk : k = a
    · simp [assocLookup, hk] at h
      exact ⟨k, by simp [h]⟩
    · simp [assocLookup, hk] at h
      obtain ⟨k2, hmem⟩ := ih h
      exact ⟨k2, List.mem_cons_of_mem _ hmem⟩

/-- C2: for every key present in the memory cache, `getImage` returns the
cached image immediately, leaves the state unchanged, and performs no
observable interaction at all — in particular it emits no download
request, queries no tile provider and reads no persistent disk cache. -/
theorem getImage_memory_hit (dec : Bytes → Option Bytes) (url : Url)
    (st : ImState) (pixmap : Pixmap)
    (hhit : findTileInMemoryCache st url = some pixmap) :
    getImage dec url st = (pixmap, st, []) := by
  simp [getImage, hhit]

/-- Evaluation of `getImage_memory_hit` on a concrete hit state. -/
theorem getImage_memory_hit_eval :
    findTileInMemoryCache stHit2 "u" = some (Pixmap.img [7])
      ∧ getImage decId "u" stHit2 = (Pixmap.img [7], stHit2, []) :=
  ⟨by rfl, getImage_memory_hit decId "u" stHit2 (Pixmap.img [7]) (by rfl)⟩

/-- C3: with policy `AlwaysCache` and no tile provider bound, `getImage` on
a key cached neither in memory nor in the persistent disk cache emits no
download request and returns the empty-tile placeholder, leaving the state
unchanged. -/
theorem getImage_alwaysCache_offline (dec : Bytes → Option Bytes)
    (url : Url) (st : ImState)
    (hprov : st.tileProvider = none)
    (hpol : st.cachePolicy = CachePolicy.AlwaysCache)
    (hmem : findTileInMemoryCache st url = none)
    (hdisk : diskLookup st url = none) :
    (getImage dec url st).1 = st.pixmapEmpty
      ∧ (getImage dec url st).2.1 = st
      ∧ ∀ u b, Eff.downloadImage u b ∉ (getImage dec url st).2.2 := by
  cases hdc : st.diskCache with
  | none =>
    simp [getImage, hmem, getImageInternal, hprov, hpol, hdc]
  | some dc =>
    have hlk : assocLookup dc url = none := by
      have h2 := hdisk
      simp [diskLookup, hdc] at h2
      exact h2
    simp [getImage, hmem, getImageInternal, hprov, hpol, hdc, hlk]

/-- Evaluation of `getImage_alwaysCache_offline` on the base state. -/
theorem getImage_alwaysCache_offline_eval :
    (stBase.tileProvider = none
      ∧ stBase.cachePolicy = CachePolicy.AlwaysCache
      ∧ findTileInMemoryCache stBase "u" = none
      ∧ diskLookup stBase "u" = none)
    ∧ ((getImage decId "u" stBase).1 = stBase.pixmapEmpty
      ∧ (getImage decId "u" stBase).2.1 = stBase
      ∧ ∀ u b, Eff.downloadImage u b ∉ (getImage decId "u" stBase).2.2) :=
  ⟨⟨rfl, rfl, rfl, rfl⟩,
   getImage_alwaysCache_offline decId "u" stBase rfl rfl rfl rfl⟩

/-- C10: `prefetchImage` on a url already present in the memory cache
changes nothing observable: the state (prefetch set, caches, network
manager) is unchanged and no effect is produced. -/
theorem prefetchImage_memory_hit (dec : Bytes → Option Bytes) (url : Url)
    (st : ImState) (pixmap : Pixmap)
    (hhit : findTileInMemoryCache st url = some pixmap) :
    prefetchImage dec url st = (st, []) := by
  simp [prefetchImage, hhit]

/-- Evaluation of `prefetchImage_memory_hit` on a concrete hit state. -/
theorem prefetchImage_memory_hit_eval :
    findTileInMemoryCache stHit10 "u" = some (Pixmap.img [7])
      ∧ prefetchImage decId "u" stHit10 = (stHit10, []) :=
  ⟨by rfl, prefetchImage_memory_hit decId "u" stHit10 (Pixmap.img [7]) (by rfl)⟩

/-- C4: the download-request table keeps at most one live request per URL:
a `downloadImage` call for a URL already being downloaded leaves the state
unchanged and starts no transport operation, and a call on a duplicate-free
request table leaves it duplicate-free. -/
theorem downloadImage_dedup (nm : NMState) (url : Url) (co : Bool) :
    (nm.isDownloading url = true → nm.downloadImage url co = (nm, []))
    ∧ (nm.downloadRequests.Nodup →
        (nm.downloadImage url co).1.downloadRequests.Nodup) := by
  constructor
  · intro h
    simp [NMState.downloadImage, h]
  · intro hnd
    by_cases h : nm.isDownloading url
    · simp [NMState.downloadImage, h, hnd]
    · have hmem : url ∉ nm.downloadRequests := by
        simpa [NMState.isDownloading] using h
      simp [NMState.downloadImage, h, List.nodup_cons, hmem, hnd]

/-- Evaluation of `downloadImage_dedup` on a concrete busy manager. -/
theorem downloadImage_dedup_eval :
    (nmBusy.isDownloading "a" = true
      ∧ nmBusy.downloadImage "a" false = (nmBusy, []))
    ∧ (nmBusy.downloadRequests.Nodup
      ∧ (nmBusy.downloadImage "a" false).1.downloadRequests.Nodup) :=
  ⟨⟨by decide, (downloadImage_dedup nmBusy "a" false).1 (by decide)⟩,
   ⟨by decide, (downloadImage_dedup nmBusy "a" false).2 (by decide)⟩⟩

/-- C6: `setCachePolicy` always stores the given policy; entering
`AlwaysCache` aborts all outstanding downloads and clears the pending
prefetches; entering `AlwaysNetwork` detaches the persistent disk cache
from the network layer; entering `PreferCache` attaches the configured
persistent disk cache to the network layer. -/
theorem setCachePolicy_spec (st : ImState) (policy : CachePolicy) :
    (setCachePolicy st policy).cachePolicy = policy
    ∧ (policy = CachePolicy.AlwaysCache →
        (setCachePolicy st policy).networkManager.downloadRequests = []
        ∧ (setCachePolicy st policy).prefetchUrls = [])
    ∧ (policy = CachePolicy.AlwaysNetwork →
        (setCachePolicy st policy).networkManager.cache = none)
    ∧ (policy = CachePolicy.PreferCache →
        (setCachePolicy st policy).networkManager.cache = st.diskCache) := by
  cases policy <;>
    simp [setCachePolicy, abortLoading, NMState.abortDownloads,
      NMState.setCache]

/-- Evaluation of `setCachePolicy_spec` on the base state for each of the
three policies. -/
theorem setCachePolicy_spec_eval :
    ((setCachePolicy stBase CachePolicy.AlwaysCache).networkManager.downloadRequests = []
      ∧ (setCachePolicy stBase CachePolicy.AlwaysCache).prefetchUrls = [])
    ∧ (setCachePolicy stBase CachePolicy.AlwaysNetwork).networkManager.cache = none
    ∧ (setCachePolicy stBase CachePolicy.PreferCache).networkManager.cache = stBase.diskCache :=
  ⟨(setCachePolicy_spec stBase CachePolicy.AlwaysCache).2.1 rfl,
   (setCachePolicy_spec stBase CachePolicy.AlwaysNetwork).2.2.1 rfl,
   (setCachePolicy_spec stBase CachePolicy.PreferCache).2.2.2 rfl⟩

/-- C1: miss-path resolution order of `getImage` on a url absent from the
memory cache: (a) with a provider bound, a successful provider query
decodes the bytes, hands the decoded image to the memory-cache insertion
and returns it, the provider query being the only interaction, while
provider no-data returns the empty-tile placeholder with no network or
disk fallback; (b) with no provider, under `AlwaysCache` or `PreferCache`
a persistent-cache hit is decoded, handed to the memory-cache insertion
and returned, the disk read being the only interaction; (c) otherwise
under `AlwaysCache` the empty-tile placeholder is returned and no download
is emitted; (d) otherwise an asynchronous download for the url is emitted
and the loading-tile placeholder is returned. -/
theorem getImage_miss_path (dec : Bytes → Option Bytes) (url : Url)
    (st : ImState) (hmem : findTileInMemoryCache st url = none) :
    (∀ provider data, st.tileProvider = some provider →
        provider url = some data →
      (getImage dec url st).1 = decodePixmap dec data
      ∧ (getImage dec url st).2.1.memoryCache
          = (insertTileToMemoryCache st url (decodePixmap dec data)).memoryCache
      ∧ (getImage dec url st).2.2 = [Eff.queryProvider url])
    ∧ (∀ provider, st.tileProvider = some provider → provider url = none →
        getImage dec url st = (st.pixmapEmpty, st, [Eff.queryProvider url]))
    ∧ (∀ data, st.tileProvider = none →
        (st.cachePolicy = CachePolicy.AlwaysCache
          ∨ st.cachePolicy = CachePolicy.PreferCache) →
        diskLookup st url = some data →
      (getImage dec url st).1 = decodePixmap dec data
      ∧ (getImage dec url st).2.1.memoryCache
          = (insertTileToMemoryCache st url (decodePixmap dec data)).memoryCache
      ∧ (getImage dec url st).2.2 = [Eff.readDiskCache url])
    ∧ (st.tileProvider = none → st.cachePolicy = CachePolicy.AlwaysCache →
        diskLookup st url = none →
      (getImage dec url st).1 = st.pixmapEmpty
      ∧ (getImage dec url st).2.1 = st
      ∧ ∀ u b, Eff.downloadImage u b ∉ (getImage dec url st).2.2)
    ∧ (st.tileProvider = none →
        (st.cachePolicy = CachePolicy.AlwaysNetwork
          ∨ (st.cachePolicy = CachePolicy.PreferCache
              ∧ diskLookup st url = none)) →
      (getImage dec url st).1 = st.pixmapLoading
      ∧ (getImage dec url st).2.1 = st
      ∧ Eff.downloadImage url false ∈ (getImage dec url st).2.2) := by
  refine ⟨?_, ?_, ?_, ?_, ?_⟩
  · intro provider data hprov hdata
    simp [getImage, hmem, getImageInternal, hprov, hdata, getImageFromDevice]
  · intro provider hprov hpn
    simp [getImage, hmem, getImageInternal, hprov, hpn]
  · intro data hprov hpol hdl
    cases hdc : st.diskCache with
    | none => simp [diskLookup, hdc] at hdl
    | some dc =>
      have hlk : assocLookup dc url = some data := by
        simpa [diskLookup, hdc] using hdl
      rcases hpol with h | h <;>
        simp [getImage, hmem, getImageInternal, hprov, h, hdc, hlk,
          getImageFromDevice]
  · intro hprov hpol hdl
    cases hdc : st.diskCache with
    | none => simp [getImage, hmem, getImageInternal, hprov, hpol, hdc]
    | some dc =>
      have hlk : assocLookup dc url = none := by
        simpa [diskLookup, hdc] using hdl
      simp [getImage, hmem, getImageInternal, hprov, hpol, hdc, hlk]
  · intro hprov hpol
    rcases hpol with h | ⟨h, hdl⟩
    · simp [getImage, hmem, getImageInternal, hprov, h]
    · cases hdc : st.diskCache with
      | none => simp [getImage, hmem, getImageInternal, hprov, h, hdc]
      | some dc =>
        have hlk : assocLookup dc url = none := by
          simpa [diskLookup, hdc] using hdl
        simp [getImage, hmem, getImageInternal, hprov, h, hdc, hlk]

/-- Evaluation of `getImage_miss_path` on a concrete provider state. -/
theorem getImage_miss_path_eval :
    findTileInMemoryCache stProv1 "a" = none
    ∧ ((getImage decId "a" stProv1).1 = decodePixmap decId [1, 2]
      ∧ (getImage decId "a" stProv1).2.1.memoryCache
          = (insertTileToMemoryCache stProv1 "a"
              (decodePixmap decId [1, 2])).memoryCache
      ∧ (getImage decId "a" stProv1).2.2 = [Eff.queryProvider "a"]) :=
  ⟨by rfl,
   (getImage_miss_path decId "a" stProv1 (by rfl)).1 provA [1, 2] rfl rfl⟩

/-- C5: a download completion for a url in the prefetch set removes the url
from the prefetch set and emits no `imageUpdated`; a completion for a url
not in the prefetch set emits exactly `imageUpdated(url)` and leaves the
prefetch set unchanged; in both cases the downloaded pixmap is handed to
the memory-cache insertion. -/
theorem handleImageDownloaded_spec (url : Url) (pixmap : Pixmap)
    (st : ImState) :
    (url ∈ st.prefetchUrls →
      (handleImageDownloaded url pixmap st).1.prefetchUrls
          = st.prefetchUrls.erase url
      ∧ ∀ u, Eff.imageUpdated u ∉ (handleImageDownloaded url pixmap st).2)
    ∧ (url ∉ st.prefetchUrls →
      (handleImageDownloaded url pixmap st).2 = [Eff.imageUpdated url]
      ∧ (handleImageDownloaded url pixmap st).1.prefetchUrls
          = st.prefetchUrls)
    ∧ (handleImageDownloaded url pixmap st).1.memoryCache
        = (insertTileToMemoryCache st url pixmap).memoryCache := by
  refine ⟨?_, ?_, ?_⟩
  · intro h
    constructor
    · by_cases hn : pixmap.isNull <;>
        simp [handleImageDownloaded, h, insertTileToMemoryCache, hn]
    · simp [handleImageDownloaded, h]
  · intro h
    constructor
    · simp [handleImageDownloaded, h]
    · by_cases hn : pixmap.isNull <;>
        simp [handleImageDownloaded, h, insertTileToMemoryCache, hn]
  · by_cases h : url ∈ st.prefetchUrls <;>
      by_cases hn : pixmap.isNull <;>
        simp [handleImageDownloaded, h, insertTileToMemoryCache, hn,
          hashTileUrl]

/-- Evaluation of `handleImageDownloaded_spec` on a concrete prefetch
completion. -/
theorem handleImageDownloaded_spec_eval :
    "p" ∈ stPre5.prefetchUrls
    ∧ ((handleImageDownloaded "p" (Pixmap.img [9]) stPre5).1.prefetchUrls
        = stPre5.prefetchUrls.erase "p"
      ∧ ∀ u, Eff.imageUpdated u
          ∉ (handleImageDownloaded "p" (Pixmap.img [9]) stPre5).2)
    ∧ (handleImageDownloaded "p" (Pixmap.img [9]) stPre5).1.memoryCache
        = (insertTileToMemoryCache stPre5 "p" (Pixmap.img [9])).memoryCache :=
  ⟨by decide,
   (handleImageDownloaded_spec "p" (Pixmap.img [9]) stPre5).1 (by decide),
   (handleImageDownloaded_spec "p" (Pixmap.img [9]) stPre5).2.2⟩

/-- C7: `cacheImageToDisk` returns `true` with no download when the policy
is `AlwaysCache` or `PreferCache` and raw bytes for the url are available
(emitting the `imageCached` notification), returns `true` with no download
under `AlwaysCache` even without available bytes, and in every other case
emits a cache-only download and returns `false`. -/
theorem cacheImageToDisk_spec (url : Url) (st : ImState) :
    ((st.cachePolicy = CachePolicy.AlwaysCache
        ∨ st.cachePolicy = CachePolicy.PreferCache) →
      0 < (rawImageFromDiskCache st url).length →
      cacheImageToDisk url st = (true, st, [Eff.imageCached]))
    ∧ (st.cachePolicy = CachePolicy.AlwaysCache →
        (rawImageFromDiskCache st url).length = 0 →
      cacheImageToDisk url st = (true, st, []))
    ∧ (st.cachePolicy = CachePolicy.AlwaysNetwork →
      cacheImageToDisk url st = (false, st, [Eff.downloadImage url true]))
    ∧ (st.cachePolicy = CachePolicy.PreferCache →
        (rawImageFromDiskCache st url).length = 0 →
      cacheImageToDisk url st = (false, st, [Eff.downloadImage url true])) := by
  refine ⟨?_, ?_, ?_, ?_⟩
  · intro hp hlen
    rcases hp with h | h <;>
      simp [cacheImageToDisk, h, hlen, handleImageCached]
  · intro h hlen
    simp [cacheImageToDisk, h, hlen]
  · intro h
    simp [cacheImageToDisk, h]
  · intro h hlen
    simp [cacheImageToDisk, h, hlen]

/-- Evaluation of `cacheImageToDisk_spec` on a concrete `PreferCache` state
whose disk cache holds the url. -/
theorem cacheImageToDisk_spec_eval :
    (stDisk7.cachePolicy = CachePolicy.AlwaysCache
      ∨ stDisk7.cachePolicy = CachePolicy.PreferCache)
    ∧ 0 < (rawImageFromDiskCache stDisk7 "d").length
    ∧ cacheImageToDisk "d" stDisk7 = (true, stDisk7, [Eff.imageCached]) :=
  ⟨Or.inr rfl, by decide,
   (cacheImageToDisk_spec "d" stDisk7).1 (Or.inr rfl) (by decide)⟩

/-- C8 counterexample: on a provider state whose bytes fail to decode,
`getImage` returns the null pixmap, which is not the empty-tile
placeholder of the state; the memory cache is unchanged. -/
theorem getImage_decode_failure_cex :
    (getImage decFail "a" stC8).1 = Pixmap.null
    ∧ (getImage decFail "a" stC8).1 ≠ stC8.pixmapEmpty
    ∧ (getImage decFail "a" stC8).2.1.memoryCache = stC8.memoryCache :=
  ⟨by rfl, by decide, by rfl⟩

/-- C8 as amended: when the bytes fail to decode, the null pixmap itself is
returned to the caller (not the empty-tile placeholder) and nothing is
inserted into the memory cache. -/
theorem getImageFromDevice_decode_failure (dec : Bytes → Option Bytes)
    (url : Url) (data : Bytes) (st : ImState) (hdec : dec data = none) :
    (getImageFromDevice dec url data st).1 = Pixmap.null
    ∧ (getImageFromDevice dec url data st).2.memoryCache = st.memoryCache := by
  simp [getImageFromDevice, decodePixmap, hdec, insertTileToMemoryCache,
    Pixmap.isNull]

/-- Evaluation of `getImageFromDevice_decode_failure` on concrete bytes. -/
theorem getImageFromDevice_decode_failure_eval :
    decFail [1, 2] = none
    ∧ ((getImageFromDevice decFail "a" [1, 2] stBase).1 = Pixmap.null
      ∧ (getImageFromDevice decFail "a" [1, 2] stBase).2.memoryCache
          = stBase.memoryCache) :=
  ⟨rfl, getImageFromDevice_decode_failure decFail "a" [1, 2] stBase rfl⟩

/-- C9: a null pixmap is never inserted — insertion with a null pixmap
leaves the state unchanged; insertion preserves the invariant that every
memory-cache entry is non-null; and under that invariant every successful
`findTileInMemoryCache` lookup yields a non-null pixmap, validating the
assertion on the `getImage` hit path. -/
theorem memoryCache_never_null (st : ImState) (url : Url) (pixmap : Pixmap) :
    (pixmap.isNull = true → insertTileToMemoryCache st url pixmap = st)
    ∧ (CacheWF st.memoryCache →
        CacheWF (insertTileToMemoryCache st url pixmap).memoryCache)
    ∧ (CacheWF st.memoryCache →
        ∀ p, findTileInMemoryCache st url = some p → p.isNull = false) := by
  refine ⟨?_, ?_, ?_⟩
  · intro h
    simp [insertTileToMemoryCache, h]
  · intro hwf
    by_cases h : pixmap.isNull
    · simpa [insertTileToMemoryCache, h] using hwf
    · have hfalse : pixmap.isNull = false := by
        revert h
        cases pixmap.isNull <;> simp
      intro kv hkv
      simp [insertTileToMemoryCache, hfalse] at hkv
      rcases hkv with hkv | hkv
      · rw [hkv]
        exact hfalse
      · exact hwf kv hkv
  · intro hwf p hp
    have hp2 : assocLookup st.memoryCache (hashTileUrl st url) = some p := by
      simpa [findTileInMemoryCache] using hp
    obtain ⟨k, hmem⟩ := assocLookup_mem _ _ _ hp2
    exact hwf (k, p) hmem

/-- Evaluation of `memoryCache_never_null` on a concrete well-formed
cache. -/
theorem memoryCache_never_null_eval :
    CacheWF stHit9.memoryCache
    ∧ Pixmap.isNull (Pixmap.img [7]) = false :=
  ⟨by decide,
   (memoryCache_never_null stHit9 "u" Pixmap.null).2.2 (by decide)
     (Pixmap.img [7]) (by rfl)⟩
